import Mathlib

/-!
Verification of the rate-limiter policy engine described by the repository's
design specification, together with the header-building code of the example
scripts. The repository's Python scripts only send policy strings as HTTP
headers; the policy engine itself (parser, key resolver, quota store,
decision engine) is specified but not implemented locally, so those
components are modelled directly from the specification text. The header
construction of `langchain_example.py` and the literal policy strings of
`rate_limiting.py` are translated from the source files.
-/

namespace RateLimiter

/-- Modelled from the spec: §3, the cost unit of a policy,
`unit ∈ \x7brequests, cents\x7d`. -/
inductive CostUnit where
  | requests
  | cents
deriving DecidableEq, Repr

/-- Modelled from the spec: §3, the segmentation dimension of a policy,
`segment ∈ \x7bglobal, user, property\x7d`. The property name is supplied by
the request context (§4.2), not by the policy string. -/
inductive Segment where
  | global
  | user
  | property
deriving DecidableEq, Repr

/-- Modelled from the spec: §3, a parsed rate-limit policy. -/
structure Policy where
  quota : Int
  window_seconds : Int
  unit : CostUnit
  segment : Segment
deriving DecidableEq, Repr

/-- Modelled from the spec: §7, the error raised on a malformed policy
string. -/
structure PolicyParseError where
  msg : String
deriving DecidableEq, Repr

/-- Modelled from the spec: §7, the error raised when the request context
lacks the data the policy's segment requires. -/
structure MissingContextError where
  msg : String
deriving DecidableEq, Repr

/-- Digit value of a character, `none` for a non-digit. -/
def digitVal (c : Char) : Option Nat :=
  if c.isDigit then some (c.toNat - 48) else none

/-- Accumulating decimal-number reader over a character list. -/
def parseNatAux : List Char → Nat → Option Nat
  | [], acc => some acc
  | c :: rest, acc =>
    match digitVal c with
    | some d => parseNatAux rest (acc * 10 + d)
    | none => none

/-- Reads a non-empty all-digit character list as a natural number. -/
def parseNat? : List Char → Option Nat
  | [] => none
  | cs => parseNatAux cs 0

/-- Modelled from the spec: §4.1, a numeric field must be a positive
integer; non-numeric or non-positive text is refused. -/
def parsePos (cs : List Char) : Option Int :=
  match parseNat? cs with
  | some n => if 0 < n then some (n : Int) else none
  | none => none

/-- Modelled from the spec: §4.1, the recognized unit tokens. -/
def parseUnitTok : List Char → Option CostUnit
  | ['r', 'e', 'q', 'u', 'e', 's', 't', 's'] => some CostUnit.requests
  | ['c', 'e', 'n', 't', 's'] => some CostUnit.cents
  | _ => none

/-- Modelled from the spec: §4.1, the recognized segment tokens. -/
def parseSegTok : List Char → Option Segment
  | ['u', 's', 'e', 'r'] => some Segment.user
  | ['p', 'r', 'o', 'p', 'e', 'r', 't', 'y'] => some Segment.property
  | _ => none

/-- Splits a character list into the `;`-separated components, in the same
way `String.splitOn ";"` does (the empty input gives one empty component). -/
def splitSemi : List Char → List (List Char)
  | [] => [[]]
  | c :: rest =>
    let r := splitSemi rest
    if c = ';' then [] :: r
    else
      match r with
      | [] => [[c]]
      | h :: t => (c :: h) :: t

/-- Recognizes a component tagged `t=`, returning the value part. -/
def isTagged (t : Char) : List Char → Option (List Char)
  | a :: b :: v => if a = t ∧ b = '=' then some v else none
  | _ => none

/-- Intermediate state while reading the tail components of a policy
string: which of `w=`, `u=`, `s=` have been seen, and their values. -/
structure TailState where
  w : Option Int
  u : Option CostUnit
  seg : Option Segment
deriving DecidableEq, Repr

/-- Modelled from the spec: §4.1, reads one tail component. The grammar
`quota [";" "w=" window] [";" "u=" unit] [";" "s=" segment]` fixes the
order of the optional components, so a component arriving after one that
the grammar places later is refused, as is a duplicate. -/
def stepComp (st : TailState) (c : List Char) : Except PolicyParseError TailState :=
  match isTagged 'w' c with
  | some v =>
    if st.w.isSome || st.u.isSome || st.seg.isSome then
      Except.error ⟨"w component out of order"⟩
    else
      match parsePos v with
      | some n => Except.ok ⟨some n, st.u, st.seg⟩
      | none => Except.error ⟨"window must be a positive integer"⟩
  | none =>
    match isTagged 'u' c with
    | some v =>
      if st.u.isSome || st.seg.isSome then
        Except.error ⟨"u component out of order"⟩
      else
        match parseUnitTok v with
        | some x => Except.ok ⟨st.w, some x, st.seg⟩
        | none => Except.error ⟨"unrecognized unit token"⟩
    | none =>
      match isTagged 's' c with
      | some v =>
        if st.seg.isSome then
          Except.error ⟨"duplicate s component"⟩
        else
          match parseSegTok v with
          | some x => Except.ok ⟨st.w, st.u, some x⟩
          | none => Except.error ⟨"unrecognized segment token"⟩
      | none => Except.error ⟨"unrecognized component"⟩

/-- Reads all tail components in order. -/
def parseTail : List (List Char) → TailState → Except PolicyParseError TailState
  | [], st => Except.ok st
  | c :: rest, st =>
    match stepComp st c with
    | Except.ok st' => parseTail rest st'
    | Except.error e => Except.error e

/-- Modelled from the spec: §4.1, the policy parser over the `;`-split
components: the first component is the mandatory positive quota, the tail
components are read in grammar order, the window is mandatory, the unit
defaults to `requests` and an omitted segment means global. -/
def parseComponents (cs : List (List Char)) : Except PolicyParseError Policy :=
  match cs with
  | [] => Except.error ⟨"empty policy"⟩
  | q :: rest =>
    match parsePos q with
    | none => Except.error ⟨"quota must be a positive integer"⟩
    | some quota =>
      match parseTail rest ⟨none, none, none⟩ with
      | Except.error e => Except.error e
      | Except.ok st =>
        match st.w with
        | none => Except.error ⟨"missing mandatory w component"⟩
        | some win =>
          Except.ok ⟨quota, win, st.u.getD CostUnit.requests, st.seg.getD Segment.global⟩

/-- Modelled from the spec: §4.1, the Policy Parser on a policy string. -/
def parsePolicy (s : String) : Except PolicyParseError Policy :=
  parseComponents (splitSemi s.data)

/-- Whether an `Except` computation succeeded. -/
def isOk : Except ε α → Bool
  | Except.ok _ => true
  | Except.error _ => false

/-- Modelled from the spec: §4.2, the request context handed to the Key
Resolver: an optional user id, and an optional named property value. -/
structure Context where
  user_id : Option String
  property_name : Option String
  property_value : Option String
deriving DecidableEq, Repr

/-- Modelled from the spec: §4.2, the Key Resolver. `segment=global` gives
the constant key `"*"`; `segment=user` fails with `MissingContextError`
when `user_id` is absent, else gives `"user:" ++ user_id`;
`segment=property` fails with `MissingContextError` when the named property
value is absent, else gives `"property:" ++ name ++ ":" ++ value`. -/
def resolveKey (seg : Segment) (ctx : Context) : Except MissingContextError String :=
  match seg with
  | Segment.global => Except.ok "*"
  | Segment.user =>
    match ctx.user_id with
    | some uid => Except.ok ("user:" ++ uid)
    | none => Except.error ⟨"user_id absent"⟩
  | Segment.property =>
    match ctx.property_name, ctx.property_value with
    | some name, some value => Except.ok ("property:" ++ name ++ ":" ++ value)
    | _, _ => Except.error ⟨"named property value absent"⟩

/-- Modelled from the spec: §3, the per-key window state of the Quota
Store. -/
structure WindowState where
  window_start : Int
  consumed : Int
  window_seconds : Int
deriving DecidableEq, Repr

/-- The Quota Store maps each LimitKey to its lazily created window
state. -/
def Store : Type := String → Option WindowState

/-- Pointwise update of the store at one key. -/
def Store.set (s : Store) (k : String) (w : WindowState) : Store :=
  fun k' => if k' = k then some w else s k'

/-- The store with no window state yet. -/
def Store.empty : Store := fun _ => none

/-- Modelled from the spec: §4.3, `get_or_create(key, window_seconds)`:
returns the existing state if `now < window_start + window_seconds`,
otherwise resets `window_start = now`, `consumed = 0` (fixed-window reset;
a request exactly at the window boundary starts a fresh window). The state
is created lazily on the first request for a key. -/
def getOrCreate (s : Store) (key : String) (window_seconds : Int) (now : Int) :
    WindowState × Store :=
  match s key with
  | some st =>
    if now < st.window_start + st.window_seconds then (st, s)
    else
      let st' : WindowState := ⟨now, 0, window_seconds⟩
      (st', s.set key st')
  | none =>
    let st' : WindowState := ⟨now, 0, window_seconds⟩
    (st', s.set key st')

/-- Modelled from the spec: §4.3, `record(key, cost)`: adds `cost` to
`consumed` for the key's current window. -/
def record (s : Store) (key : String) (cost : Int) : Store :=
  match s key with
  | some st => s.set key ⟨st.window_start, st.consumed + cost, st.window_seconds⟩
  | none => s

/-- Modelled from the spec: §4.4, the decision returned by the Limiter
Decision Engine. -/
structure Decision where
  admitted : Bool
  remaining : Int
  retry_after_seconds : Option Int
deriving DecidableEq, Repr

/-- Modelled from the spec: §4.4, `evaluate(policy, context, cost)`:
resolve the key (propagating `MissingContextError`), fetch or create the
window state, compute `remaining = quota - consumed`; if `remaining >=
cost` record the cost and admit with `remaining - cost`, else reject with
`max(remaining, 0)` and `retry_after_seconds = (window_start +
window_seconds) - now` — rejection is a normal outcome, not an error. -/
def evaluate (p : Policy) (ctx : Context) (cost : Int) (now : Int) (s : Store) :
    Except MissingContextError (Decision × Store) :=
  match resolveKey p.segment ctx with
  | Except.error e => Except.error e
  | Except.ok key =>
    let (st, s1) := getOrCreate s key p.window_seconds now
    let remaining : Int := p.quota - st.consumed
    if cost ≤ remaining then
      Except.ok (⟨true, remaining - cost, none⟩, record s1 key cost)
    else
      Except.ok (⟨false, max remaining 0, some (st.window_start + st.window_seconds - now)⟩, s1)

/-- Runs a list of evaluate calls sequentially, threading the store: each
call is a `(context, cost, now)` triple; the run stops with `none` when a
call raises `MissingContextError`. -/
def runSeq (p : Policy) : Store → List (Context × Int × Int) → Option (List Decision × Store)
  | s, [] => some ([], s)
  | s, (ctx, cost, now) :: rest =>
    match evaluate p ctx cost now s with
    | Except.error _ => none
    | Except.ok (d, s') =>
      match runSeq p s' rest with
      | none => none
      | some (ds, s'') => some (d :: ds, s'')

/-- The shapes the grammar of §4.1 allows after the quota and window
components: nothing, a `u=` component, an `s=` component, or both in that
order, each with a recognized token. -/
def TailShapes (tail : List (List Char)) : Prop :=
  tail = [] ∨
  (∃ u, (parseUnitTok u).isSome ∧ tail = ['u' :: '=' :: u]) ∨
  (∃ sg, (parseSegTok sg).isSome ∧ tail = ['s' :: '=' :: sg]) ∨
  (∃ u sg, (parseUnitTok u).isSome ∧ (parseSegTok sg).isSome ∧
    tail = ['u' :: '=' :: u, 's' :: '=' :: sg])

/-- The component lists the grammar
`quota ";" "w=" window [";" "u=" unit] [";" "s=" segment]` of §4.1 admits,
written from the spec for comparison with the parser: a positive numeric
quota, a mandatory `w=` component with a positive numeric window, and then
one of the allowed tail shapes. -/
def ValidPolicyComponents (cs : List (List Char)) : Prop :=
  ∃ q wv tail,
    (parsePos q).isSome ∧ (parsePos wv).isSome ∧ TailShapes tail ∧
    cs = q :: ('w' :: '=' :: wv) :: tail

end RateLimiter

namespace LangchainExample

/-- The header map `create_helicone_llm` builds, translated from
`langchain_example.py` lines 35-43: it starts from the framework property
header and adds the session and user headers only when the corresponding
argument is truthy in Python (present and non-empty). -/
def create_helicone_llm_headers (session_id : Option String) (user_id : Option String) :
    List (String × String) :=
  let headers := [("Helicone-Property-Framework", "langchain")]
  let headers :=
    match session_id with
    | some sid => if sid ≠ "" then headers ++ [("Helicone-Session-Id", sid)] else headers
    | none => headers
  let headers :=
    match user_id with
    | some uid => if uid ≠ "" then headers ++ [("Helicone-User-Id", uid)] else headers
    | none => headers
  headers

/-- Looks a header up in the header map, as Python `dict` access does. -/
def getHeader (hs : List (String × String)) (k : String) : Option String :=
  match hs with
  | [] => none
  | (k', v) :: rest => if k' = k then some v else getHeader rest k

end LangchainExample

namespace RateLimitingScript

/-- The policy header sent by `global_rate_limit` (`rate_limiting.py`
line 35). -/
def global_rate_limit_policy : String := "1000;w=3600"

/-- The policy header sent by `per_user_rate_limit` (`rate_limiting.py`
line 56). -/
def per_user_rate_limit_policy : String := "100;w=86400;s=user"

/-- The policy header sent by `cost_based_rate_limit` (`rate_limiting.py`
line 78). -/
def cost_based_rate_limit_policy : String := "500;w=86400;u=cents;s=user"

/-- The policy header sent by `department_rate_limit` (`rate_limiting.py`
line 98). -/
def department_rate_limit_policy : String := "5000;w=3600;s=property"

end RateLimitingScript

namespace RateLimiter

theorem Store.set_self (s : Store) (k : String) (w : WindowState) :
    s.set k w k = some w := by
  simp [Store.set]

theorem Store.set_ne (s : Store) (k k' : String) (w : WindowState) (h : k' ≠ k) :
    s.set k w k' = s k' := by
  simp [Store.set, h]

theorem getOrCreate_fresh (s : Store) (key : String) (ws now : Int) (h : s key = none) :
    getOrCreate s key ws now = (⟨now, 0, ws⟩, s.set key ⟨now, 0, ws⟩) := by
  simp [getOrCreate, h]

theorem getOrCreate_keep (s : Store) (key : String) (ws now : Int) (st : WindowState)
    (h : s key = some st) (hlt : now < st.window_start + st.window_seconds) :
    getOrCreate s key ws now = (st, s) := by
  simp [getOrCreate, h, hlt]

theorem getOrCreate_reset (s : Store) (key : String) (ws now : Int) (st : WindowState)
    (h : s key = some st) (hge : st.window_start + st.window_seconds ≤ now) :
    getOrCreate s key ws now = (⟨now, 0, ws⟩, s.set key ⟨now, 0, ws⟩) := by
  simp [getOrCreate, h, not_lt.mpr hge]

theorem getOrCreate_key_eq (s : Store) (key : String) (ws now : Int) :
    (getOrCreate s key ws now).2 key = some (getOrCreate s key ws now).1 := by
  rcases h : s key with _ | st
  · rw [getOrCreate_fresh s key ws now h]
    exact Store.set_self s key ⟨now, 0, ws⟩
  · by_cases hlt : now < st.window_start + st.window_seconds
    · rw [getOrCreate_keep s key ws now st h hlt]
      exact h
    · rw [getOrCreate_reset s key ws now st h (not_lt.mp hlt)]
      exact Store.set_self s key ⟨now, 0, ws⟩

theorem getOrCreate_ne (s : Store) (key k' : String) (ws now : Int) (h : k' ≠ key) :
    (getOrCreate s key ws now).2 k' = s k' := by
  rcases hk : s key with _ | st
  · rw [getOrCreate_fresh s key ws now hk]
    exact Store.set_ne s key k' ⟨now, 0, ws⟩ h
  · by_cases hlt : now < st.window_start + st.window_seconds
    · rw [getOrCreate_keep s key ws now st hk hlt]
    · rw [getOrCreate_reset s key ws now st hk (not_lt.mp hlt)]
      exact Store.set_ne s key k' ⟨now, 0, ws⟩ h

theorem record_of_some (s : Store) (key : String) (cost : Int) (st : WindowState)
    (h : s key = some st) :
    record s key cost = s.set key ⟨st.window_start, st.consumed + cost, st.window_seconds⟩ := by
  simp [record, h]

theorem record_ne (s : Store) (key k' : String) (cost : Int) (h : k' ≠ key) :
    record s key cost k' = s k' := by
  rcases hk : s key with _ | st <;> simp [record, hk, Store.set, h]

/-- Unfolds `evaluate` once the key has been resolved: the decision and the
updated store are exactly those of §4.4 steps 2-5. -/
theorem evaluate_eq_of_resolve (p : Policy) (ctx : Context) (cost now : Int) (s : Store)
    (key : String) (hres : resolveKey p.segment ctx = Except.ok key) :
    evaluate p ctx cost now s =
      if cost ≤ p.quota - (getOrCreate s key p.window_seconds now).1.consumed then
        Except.ok
          (⟨true, p.quota - (getOrCreate s key p.window_seconds now).1.consumed - cost, none⟩,
            record (getOrCreate s key p.window_seconds now).2 key cost)
      else
        Except.ok
          (⟨false, max (p.quota - (getOrCreate s key p.window_seconds now).1.consumed) 0,
            some ((getOrCreate s key p.window_seconds now).1.window_start +
              (getOrCreate s key p.window_seconds now).1.window_seconds - now)⟩,
            (getOrCreate s key p.window_seconds now).2) := by
  unfold evaluate
  rw [hres]

/-- C1: once the key resolves, evaluate admits exactly when the window's
remaining quota (quota minus consumed) is at least the cost; on admission
it records the cost and returns admitted with remaining equal to the
pre-call remaining minus the cost, and on rejection it returns, raising no
error, not-admitted with remaining clamped at zero and
retry_after_seconds = (window_start + window_seconds) - now; for a
quota=2, window=60 policy, three sequential calls within one window yield
admitted = [true, true, false] with the third call's remaining = 0. -/
theorem evaluate_spec :
    (∀ (p : Policy) (ctx : Context) (cost now : Int) (s : Store) (key : String),
      resolveKey p.segment ctx = Except.ok key →
      (cost ≤ p.quota - (getOrCreate s key p.window_seconds now).1.consumed →
        ∃ s', evaluate p ctx cost now s =
            Except.ok (⟨true,
              p.quota - (getOrCreate s key p.window_seconds now).1.consumed - cost, none⟩, s') ∧
          s' key = some ⟨(getOrCreate s key p.window_seconds now).1.window_start,
            (getOrCreate s key p.window_seconds now).1.consumed + cost,
            (getOrCreate s key p.window_seconds now).1.window_seconds⟩) ∧
      (p.quota - (getOrCreate s key p.window_seconds now).1.consumed < cost →
        evaluate p ctx cost now s =
          Except.ok (⟨false,
            max (p.quota - (getOrCreate s key p.window_seconds now).1.consumed) 0,
            some ((getOrCreate s key p.window_seconds now).1.window_start +
              (getOrCreate s key p.window_seconds now).1.window_seconds - now)⟩,
            (getOrCreate s key p.window_seconds now).2))) ∧
    (runSeq ⟨2, 60, CostUnit.requests, Segment.global⟩ Store.empty
        [(⟨none, none, none⟩, 1, 0), (⟨none, none, none⟩, 1, 0),
          (⟨none, none, none⟩, 1, 0)]).map Prod.fst =
      some [⟨true, 1, none⟩, ⟨true, 0, none⟩, ⟨false, 0, some 60⟩] := by
  constructor
  · intro p ctx cost now s key hres
    rw [evaluate_eq_of_resolve p ctx cost now s key hres]
    constructor
    · intro hc
      rw [if_pos hc]
      refine ⟨_, rfl, ?_⟩
      rw [record_of_some _ key cost _ (getOrCreate_key_eq s key p.window_seconds now)]
      exact Store.set_self _ key _
    · intro hc
      rw [if_neg (not_le.mpr hc)]
  · rfl

/-- Witness for C1: with quota 2 already fully consumed in the current
window, a cost-1 call is rejected with remaining 0 and a 60 second
retry. -/
theorem evaluate_spec_witness :
    evaluate ⟨2, 60, CostUnit.requests, Segment.global⟩ ⟨none, none, none⟩ 1 0
        (Store.empty.set "*" ⟨0, 2, 60⟩) =
      Except.ok (⟨false,
        max ((2 : Int) -
          (getOrCreate (Store.empty.set "*" ⟨0, 2, 60⟩) "*" 60 0).1.consumed) 0,
        some ((getOrCreate (Store.empty.set "*" ⟨0, 2, 60⟩) "*" 60 0).1.window_start +
          (getOrCreate (Store.empty.set "*" ⟨0, 2, 60⟩) "*" 60 0).1.window_seconds - 0)⟩,
        (getOrCreate (Store.empty.set "*" ⟨0, 2, 60⟩) "*" 60 0).2) :=
  (evaluate_spec.1 ⟨2, 60, CostUnit.requests, Segment.global⟩ ⟨none, none, none⟩ 1 0
    (Store.empty.set "*" ⟨0, 2, 60⟩) "*" rfl).2 (by decide)

/-- C2: get_or_create returns the existing window state exactly when
now < window_start + window_seconds and otherwise resets the state to a
fresh window starting at now with consumed = 0; a request arriving exactly
at the window boundary starts a fresh window; and after the window
elapses, a key whose previous request was rejected admits again. -/
theorem getOrCreate_spec :
    (∀ (s : Store) (key : String) (ws now : Int) (st : WindowState), s key = some st →
      (now < st.window_start + st.window_seconds → getOrCreate s key ws now = (st, s)) ∧
      (st.window_start + st.window_seconds ≤ now →
        getOrCreate s key ws now = (⟨now, 0, ws⟩, s.set key ⟨now, 0, ws⟩))) ∧
    (∀ (s : Store) (key : String) (ws : Int) (st : WindowState), s key = some st →
      getOrCreate s key ws (st.window_start + st.window_seconds) =
        (⟨st.window_start + st.window_seconds, 0, ws⟩,
          s.set key ⟨st.window_start + st.window_seconds, 0, ws⟩)) ∧
    (runSeq ⟨1, 60, CostUnit.requests, Segment.global⟩ Store.empty
        [(⟨none, none, none⟩, 1, 0), (⟨none, none, none⟩, 1, 10),
          (⟨none, none, none⟩, 1, 60)]).map Prod.fst =
      some [⟨true, 0, none⟩, ⟨false, 0, some 50⟩, ⟨true, 0, none⟩] := by
  refine ⟨?_, ?_, rfl⟩
  · intro s key ws now st h
    exact ⟨getOrCreate_keep s key ws now st h, getOrCreate_reset s key ws now st h⟩
  · intro s key ws st h
    exact getOrCreate_reset s key ws _ st h le_rfl

/-- Witness for C2: a key with consumed 3 is returned unchanged one second
before its window ends, and is reset exactly at the boundary. -/
theorem getOrCreate_spec_witness :
    getOrCreate (Store.empty.set "k" ⟨0, 3, 60⟩) "k" 60 59 =
      (⟨0, 3, 60⟩, Store.empty.set "k" ⟨0, 3, 60⟩) ∧
    getOrCreate (Store.empty.set "k" ⟨0, 3, 60⟩) "k" 60 60 =
      (⟨60, 0, 60⟩, (Store.empty.set "k" ⟨0, 3, 60⟩).set "k" ⟨60, 0, 60⟩) :=
  ⟨(getOrCreate_spec.1 (Store.empty.set "k" ⟨0, 3, 60⟩) "k" 60 59 ⟨0, 3, 60⟩
      (by decide)).1 (by decide),
    getOrCreate_spec.2.1 (Store.empty.set "k" ⟨0, 3, 60⟩) "k" 60 ⟨0, 3, 60⟩ (by decide)⟩

/-- Counterexample to C6 as stated: when the window has expired, a
rejected evaluate call still replaces the key's window state, so the
consumed counter changes (here from 1 to 0): with quota 1, consumed 1,
window [0, 60) and a cost-2 call at now = 100, the call is rejected and
the stored consumed drops from 1 to 0. -/
theorem evaluate_reject_changes_consumed :
    (Store.empty.set "*" ⟨0, 1, 60⟩) "*" = some ⟨0, 1, 60⟩ ∧
    (evaluate ⟨1, 60, CostUnit.requests, Segment.global⟩ ⟨none, none, none⟩ 2 100
        (Store.empty.set "*" ⟨0, 1, 60⟩)).map (fun r => (r.1.admitted, r.2 "*")) =
      Except.ok (false, some ⟨100, 0, 60⟩) :=
  ⟨rfl, rfl⟩

/-- C6 amended: a rejecting evaluate never increments the key's consumed
counter: within the current window a rejected call leaves the store
entirely unchanged, and in every case the key's consumed after a rejected
call is either its prior value or 0 (the fixed-window reset), never
increased by the cost — so rejections do not shrink the budget of the
current window. -/
theorem evaluate_reject_no_increment :
    ∀ (p : Policy) (ctx : Context) (cost now : Int) (s : Store) (key : String)
      (d : Decision) (s' : Store),
      resolveKey p.segment ctx = Except.ok key →
      evaluate p ctx cost now s = Except.ok (d, s') →
      d.admitted = false →
      (∀ st, s key = some st → now < st.window_start + st.window_seconds → s' = s) ∧
      (∀ st st', s key = some st → s' key = some st' →
        st'.consumed = st.consumed ∨ st'.consumed = 0) := by
  intro p ctx cost now s key d s' hres heval hadm
  rw [evaluate_eq_of_resolve p ctx cost now s key hres] at heval
  by_cases hc : cost ≤ p.quota - (getOrCreate s key p.window_seconds now).1.consumed
  · rw [if_pos hc] at heval
    have : d.admitted = true := by
      have hd := congrArg (fun x => match x with
        | Except.ok (d, _) => d.admitted
        | Except.error _ => true) heval
      simpa using hd.symm
    rw [this] at hadm
    exact absurd hadm (by simp)
  · rw [if_neg hc] at heval
    have hs' : s' = (getOrCreate s key p.window_seconds now).2 := by
      have hd := congrArg (fun x => match x with
        | Except.ok (_, s) => s
        | Except.error _ => s') heval
      simpa using hd.symm
    subst hs'
    constructor
    · intro st h hlt
      rw [getOrCreate_keep s key p.window_seconds now st h hlt]
    · intro st st' h h'
      by_cases hlt : now < st.window_start + st.window_seconds
      · rw [getOrCreate_keep s key p.window_seconds now st h hlt] at h'
        dsimp only at h'
        rw [h] at h'
        injection h' with h''
        rw [← h'']
        exact Or.inl rfl
      · rw [getOrCreate_reset s key p.window_seconds now st h (not_lt.mp hlt)] at h'
        dsimp only at h'
        rw [Store.set_self] at h'
        injection h' with h''
        rw [← h'']
        exact Or.inr rfl

/-- Witness for C6 amended: a rejected cost-1 call at now = 10 against a
fully consumed quota-1 window leaves the store unchanged. -/
theorem evaluate_reject_no_increment_witness :
    (WindowState.consumed ⟨0, 1, 60⟩ = WindowState.consumed ⟨0, 1, 60⟩ ∨
      WindowState.consumed ⟨0, 1, 60⟩ = 0) :=
  (evaluate_reject_no_increment ⟨1, 60, CostUnit.requests, Segment.global⟩
    ⟨none, none, none⟩ 1 10 (Store.empty.set "*" ⟨0, 1, 60⟩) "*"
    ⟨false, 0, some 50⟩ (Store.empty.set "*" ⟨0, 1, 60⟩) rfl (by rfl) rfl).2
    ⟨0, 1, 60⟩ ⟨0, 1, 60⟩ (by decide) (by decide)

/-- C7: budgets are isolated per LimitKey: an evaluate call whose context
resolves to one key never changes the stored window state of any other
key; two requests that resolve to the same key under the same policy see
identical evaluate results (a shared budget); and for a user-segment
quota-1 policy, evaluating for user A and then user B both admit. -/
theorem evaluate_key_isolation :
    (∀ (p : Policy) (ctx : Context) (cost now : Int) (s : Store) (key : String)
        (d : Decision) (s' : Store),
      resolveKey p.segment ctx = Except.ok key →
      evaluate p ctx cost now s = Except.ok (d, s') →
      ∀ k', k' ≠ key → s' k' = s k') ∧
    (∀ (p : Policy) (ctx₁ ctx₂ : Context) (cost now : Int) (s : Store) (key : String),
      resolveKey p.segment ctx₁ = Except.ok key →
      resolveKey p.segment ctx₂ = Except.ok key →
      evaluate p ctx₁ cost now s = evaluate p ctx₂ cost now s) ∧
    (runSeq ⟨1, 60, CostUnit.requests, Segment.user⟩ Store.empty
        [(⟨some "A", none, none⟩, 1, 0), (⟨some "B", none, none⟩, 1, 0)]).map Prod.fst =
      some [⟨true, 0, none⟩, ⟨true, 0, none⟩] := by
  refine ⟨?_, ?_, rfl⟩
  · intro p ctx cost now s key d s' hres heval k' hk
    rw [evaluate_eq_of_resolve p ctx cost now s key hres] at heval
    by_cases hc : cost ≤ p.quota - (getOrCreate s key p.window_seconds now).1.consumed
    · rw [if_pos hc] at heval
      have hs' : s' = record (getOrCreate s key p.window_seconds now).2 key cost := by
        have hd := congrArg (fun x => match x with
          | Except.ok (_, s) => s
          | Except.error _ => s') heval
        simpa using hd.symm
      rw [hs', record_ne _ key k' cost hk, getOrCreate_ne s key k' p.window_seconds now hk]
    · rw [if_neg hc] at heval
      have hs' : s' = (getOrCreate s key p.window_seconds now).2 := by
        have hd := congrArg (fun x => match x with
          | Except.ok (_, s) => s
          | Except.error _ => s') heval
        simpa using hd.symm
      rw [hs', getOrCreate_ne s key k' p.window_seconds now hk]
  · intro p ctx₁ ctx₂ cost now s key h₁ h₂
    rw [evaluate_eq_of_resolve p ctx₁ cost now s key h₁,
      evaluate_eq_of_resolve p ctx₂ cost now s key h₂]

/-- Witness for C7: a global-segment admission at key "*" leaves the state
of key "user:A" untouched. -/
theorem evaluate_key_isolation_witness :
    record ((Store.empty.set "*" ⟨0, 0, 60⟩)) "*" 1 "user:A" = Store.empty "user:A" :=
  evaluate_key_isolation.1 ⟨2, 60, CostUnit.requests, Segment.global⟩ ⟨none, none, none⟩
    1 0 Store.empty "*" ⟨true, 1, none⟩ (record (Store.empty.set "*" ⟨0, 0, 60⟩) "*" 1)
    rfl (by rfl) "user:A" (by decide)

theorem isTagged_eq_some (t : Char) (c v : List Char) :
    isTagged t c = some v ↔ c = t :: '=' :: v := by
  match c with
  | [] => simp [isTagged]
  | [a] => simp [isTagged]
  | a :: b :: w =>
    show (if a = t ∧ b = '=' then some w else none) = some v ↔ _
    by_cases h : a = t ∧ b = '='
    · obtain ⟨h1, h2⟩ := h
      subst h1
      subst h2
      simp
    · rw [if_neg h]
      simp only [List.cons.injEq]
      constructor
      · intro hv
        exact absurd hv (by simp)
      · intro ⟨h1, h2, _⟩
        exact absurd ⟨h1, h2⟩ h

theorem isTagged_self (t : Char) (v : List Char) :
    isTagged t (t :: '=' :: v) = some v :=
  (isTagged_eq_some t _ v).mpr rfl

theorem isTagged_ne (t a : Char) (v : List Char) (h : a ≠ t) :
    isTagged t (a :: '=' :: v) = none := by
  show (if a = t ∧ '=' = '=' then some v else none) = none
  exact if_neg (fun hh => h hh.1)

/-- Inverts one successful step of the tail reader: the component carries
one of the three tags, its value token is recognized, and the grammar
order constraints hold. -/
theorem stepComp_ok_inv (st st2 : TailState) (c : List Char)
    (h : stepComp st c = Except.ok st2) :
    (∃ v n, c = 'w' :: '=' :: v ∧ parsePos v = some n ∧
      st.w = none ∧ st.u = none ∧ st.seg = none ∧ st2 = ⟨some n, none, none⟩) ∨
    (∃ v x, c = 'u' :: '=' :: v ∧ parseUnitTok v = some x ∧
      st.u = none ∧ st.seg = none ∧ st2 = ⟨st.w, some x, none⟩) ∨
    (∃ v x, c = 's' :: '=' :: v ∧ parseSegTok v = some x ∧
      st.seg = none ∧ st2 = ⟨st.w, st.u, some x⟩) := by
  obtain ⟨sw, su, sg⟩ := st
  rcases hw : isTagged 'w' c with _ | v
  · rcases hu : isTagged 'u' c with _ | v
    · rcases hs : isTagged 's' c with _ | v
      · simp [stepComp, hw, hu, hs] at h
      · rcases sg with _ | sv
        · rcases hp : parseSegTok v with _ | x
          · simp [stepComp, hw, hu, hs, hp] at h
          · simp only [stepComp, hw, hu, hs, hp, Option.isSome_none, Bool.false_eq_true,
              if_false, Except.ok.injEq] at h
            exact Or.inr (Or.inr ⟨v, x, (isTagged_eq_some _ _ _).mp hs, hp, rfl, h.symm⟩)
        · simp [stepComp, hw, hu, hs] at h
    · rcases su with _ | uv
      · rcases sg with _ | sv
        · rcases hp : parseUnitTok v with _ | x
          · simp [stepComp, hw, hu, hp] at h
          · simp only [stepComp, hw, hu, hp, Option.isSome_none, Bool.false_eq_true,
              Bool.or_self, if_false, Except.ok.injEq] at h
            exact Or.inr (Or.inl ⟨v, x, (isTagged_eq_some _ _ _).mp hu, hp, rfl, rfl, h.symm⟩)
        · simp [stepComp, hw, hu] at h
      · simp [stepComp, hw, hu] at h
  · rcases sw with _ | wn
    · rcases su with _ | uv
      · rcases sg with _ | sv
        · rcases hp : parsePos v with _ | n
          · simp [stepComp, hw, hp] at h
          · simp only [stepComp, hw, hp, Option.isSome_none, Bool.false_eq_true,
              Bool.or_self, if_false, Except.ok.injEq] at h
            exact Or.inl ⟨v, n, (isTagged_eq_some _ _ _).mp hw, hp, rfl, rfl, rfl, h.symm⟩
        · simp [stepComp, hw] at h
      · simp [stepComp, hw] at h
    · simp [stepComp, hw] at h

/-- Once an s= component has been read, no further component is accepted:
the tail reader succeeds only on the empty remainder, unchanged. -/
theorem parseTail_seg_some (st : TailState) (hseg : st.seg.isSome = true)
    (rest : List (List Char)) (st' : TailState)
    (h : parseTail rest st = Except.ok st') : rest = [] ∧ st' = st := by
  cases rest with
  | nil =>
    refine ⟨rfl, ?_⟩
    simp only [parseTail, Except.ok.injEq] at h
    exact h.symm
  | cons c r =>
    exfalso
    rcases hstep : stepComp st c with e | st2
    · simp only [parseTail, hstep] at h
      exact Except.noConfusion h
    · simp only [parseTail, hstep] at h
      rcases stepComp_ok_inv st st2 c hstep with
        ⟨v, n, hc, hp, hw0, hu0, hsg0, hst2⟩ | ⟨v, x, hc, hp, hu0, hsg0, hst2⟩ |
        ⟨v, x, hc, hp, hsg0, hst2⟩ <;>
      · rw [hsg0] at hseg
        simp at hseg

/-- After a u= component, only an s= component (or nothing) may follow. -/
theorem parseTail_after_u (st : TailState) (hu : st.u.isSome = true) (hseg : st.seg = none)
    (rest : List (List Char)) (st' : TailState)
    (h : parseTail rest st = Except.ok st') :
    (rest = [] ∧ st' = st) ∨
    (∃ sg x, parseSegTok sg = some x ∧ rest = ['s' :: '=' :: sg] ∧
      st' = ⟨st.w, st.u, some x⟩) := by
  cases rest with
  | nil =>
    left
    simp only [parseTail, Except.ok.injEq] at h
    exact ⟨rfl, h.symm⟩
  | cons c r =>
    rcases hstep : stepComp st c with e | st2
    · simp only [parseTail, hstep] at h
      exact Except.noConfusion h
    · simp only [parseTail, hstep] at h
      rcases stepComp_ok_inv st st2 c hstep with
        ⟨v, n, hc, hp, hw0, hu0, hsg0, hst2⟩ | ⟨v, x, hc, hp, hu0, hsg0, hst2⟩ |
        ⟨v, x, hc, hp, hsg0, hst2⟩
      · rw [hu0] at hu
        simp at hu
      · rw [hu0] at hu
        simp at hu
      · have hseg2 : st2.seg.isSome = true := by simp [hst2]
        obtain ⟨hr, hst'⟩ := parseTail_seg_some st2 hseg2 r st' h
        right
        exact ⟨v, x, hp, by rw [hc, hr], by simp [hst', hst2]⟩

/-- After the w= component, the remaining components form exactly one of
the grammar's tail shapes and the recorded window survives to the end. -/
theorem parseTail_after_w (wn : Int) (rest : List (List Char)) (st' : TailState)
    (h : parseTail rest (⟨some wn, none, none⟩ : TailState) = Except.ok st') :
    st'.w = some wn ∧ TailShapes rest := by
  cases rest with
  | nil =>
    simp only [parseTail, Except.ok.injEq] at h
    rw [← h]
    exact ⟨rfl, Or.inl rfl⟩
  | cons c r =>
    rcases hstep : stepComp (⟨some wn, none, none⟩ : TailState) c with e | st2
    · simp only [parseTail, hstep] at h
      exact Except.noConfusion h
    · simp only [parseTail, hstep] at h
      rcases stepComp_ok_inv (⟨some wn, none, none⟩ : TailState) st2 c hstep with
        ⟨v, n, hc, hp, hw0, hu0, hsg0, hst2⟩ | ⟨v, x, hc, hp, hu0, hsg0, hst2⟩ |
        ⟨v, x, hc, hp, hsg0, hst2⟩
      · exact absurd hw0 (by simp)
      · have hu2 : st2.u.isSome = true := by simp [hst2]
        have hseg2 : st2.seg = none := by simp [hst2]
        rcases parseTail_after_u st2 hu2 hseg2 r st' h with ⟨hr, hst'⟩ | ⟨sg, y, hpsg, hr, hst'⟩
        · refine ⟨by simp [hst', hst2], ?_⟩
          exact Or.inr (Or.inl ⟨v, by rw [hp]; rfl, by rw [hc, hr]⟩)
        · refine ⟨by simp [hst', hst2], ?_⟩
          exact Or.inr (Or.inr (Or.inr
            ⟨v, sg, by rw [hp]; rfl, by rw [hpsg]; rfl, by rw [hc, hr]⟩))
      · have hseg2 : st2.seg.isSome = true := by simp [hst2]
        obtain ⟨hr, hst'⟩ := parseTail_seg_some st2 hseg2 r st' h
        refine ⟨by simp [hst', hst2], ?_⟩
        exact Or.inr (Or.inr (Or.inl ⟨v, by rw [hp]; rfl, by rw [hc, hr]⟩))

/-- A tail that starts with a u= or s= component can never supply the
mandatory window. -/
theorem parseTail_w_stays_none (st : TailState) (hw : st.w = none)
    (hus : (st.u.isSome || st.seg.isSome) = true)
    (rest : List (List Char)) (st' : TailState)
    (h : parseTail rest st = Except.ok st') : st'.w = none := by
  cases rest with
  | nil =>
    simp only [parseTail, Except.ok.injEq] at h
    rw [← h]
    exact hw
  | cons c r =>
    rcases hstep : stepComp st c with e | st2
    · simp only [parseTail, hstep] at h
      exact Except.noConfusion h
    · simp only [parseTail, hstep] at h
      rcases stepComp_ok_inv st st2 c hstep with
        ⟨v, n, hc, hp, hw0, hu0, hsg0, hst2⟩ | ⟨v, x, hc, hp, hu0, hsg0, hst2⟩ |
        ⟨v, x, hc, hp, hsg0, hst2⟩
      · rw [hu0, hsg0] at hus
        simp at hus
      · rw [hu0, hsg0] at hus
        simp at hus
      · have hseg2 : st2.seg.isSome = true := by simp [hst2]
        obtain ⟨hr, hst'⟩ := parseTail_seg_some st2 hseg2 r st' h
        rw [hst', hst2]
        exact hw

/-- A successful run of the tail reader from the initial state that ends
with a window recorded must have read a well-formed w= component first,
followed by one of the grammar's tail shapes. -/
theorem parseTail_start_inv (rest : List (List Char)) (st' : TailState)
    (h : parseTail rest (⟨none, none, none⟩ : TailState) = Except.ok st')
    (hw : st'.w.isSome = true) :
    ∃ wv n tail, rest = ('w' :: '=' :: wv) :: tail ∧ parsePos wv = some n ∧
      TailShapes tail ∧ st'.w = some n := by
  cases rest with
  | nil =>
    simp only [parseTail, Except.ok.injEq] at h
    rw [← h] at hw
    simp at hw
  | cons c r =>
    rcases hstep : stepComp (⟨none, none, none⟩ : TailState) c with e | st2
    · simp only [parseTail, hstep] at h
      exact Except.noConfusion h
    · simp only [parseTail, hstep] at h
      rcases stepComp_ok_inv (⟨none, none, none⟩ : TailState) st2 c hstep with
        ⟨v, n, hc, hp, hw0, hu0, hsg0, hst2⟩ | ⟨v, x, hc, hp, hu0, hsg0, hst2⟩ |
        ⟨v, x, hc, hp, hsg0, hst2⟩
      · rw [hst2] at h
        obtain ⟨hw', hshape⟩ := parseTail_after_w n r st' h
        exact ⟨v, n, r, by rw [hc], hp, hshape, hw'⟩
      · have hnone := parseTail_w_stays_none st2 (by simp [hst2]) (by simp [hst2]) r st' h
        rw [hnone] at hw
        simp at hw
      · have hseg2 : st2.seg.isSome = true := by simp [hst2]
        obtain ⟨hr, hst'⟩ := parseTail_seg_some st2 hseg2 r st' h
        rw [hst', hst2] at hw
        simp at hw

theorem stepComp_w_start (wv : List Char) (n : Int) (hpw : parsePos wv = some n) :
    stepComp ⟨none, none, none⟩ ('w' :: '=' :: wv) = Except.ok ⟨some n, none, none⟩ := by
  simp [stepComp, isTagged_self, hpw]

theorem stepComp_u_mid (w0 : Option Int) (v : List Char) (x : CostUnit)
    (hu : parseUnitTok v = some x) :
    stepComp ⟨w0, none, none⟩ ('u' :: '=' :: v) = Except.ok ⟨w0, some x, none⟩ := by
  have h1 : isTagged 'w' ('u' :: '=' :: v) = none := isTagged_ne 'w' 'u' v (by decide)
  simp [stepComp, h1, isTagged_self, hu]

theorem stepComp_s_mid (w0 : Option Int) (u0 : Option CostUnit) (v : List Char) (x : Segment)
    (hs : parseSegTok v = some x) :
    stepComp ⟨w0, u0, none⟩ ('s' :: '=' :: v) = Except.ok ⟨w0, u0, some x⟩ := by
  have h1 : isTagged 'w' ('s' :: '=' :: v) = none := isTagged_ne 'w' 's' v (by decide)
  have h2 : isTagged 'u' ('s' :: '=' :: v) = none := isTagged_ne 'u' 's' v (by decide)
  simp [stepComp, h1, h2, isTagged_self, hs]

/-- Every component list of the grammar form parses successfully. -/
theorem parseComponents_ok_of_valid (cs : List (List Char)) (h : ValidPolicyComponents cs) :
    isOk (parseComponents cs) = true := by
  obtain ⟨q, wv, tail, hq, hwv, htail, hcs⟩ := h
  obtain ⟨nq, hnq⟩ := Option.isSome_iff_exists.mp hq
  obtain ⟨nw, hnw⟩ := Option.isSome_iff_exists.mp hwv
  subst hcs
  have hstep1 := stepComp_w_start wv nw hnw
  rcases htail with h0 | ⟨u, hu, h1⟩ | ⟨sg, hs, h1⟩ | ⟨u, sg, hu, hs, h1⟩
  · subst h0
    simp [parseComponents, hnq, parseTail, hstep1, isOk]
  · obtain ⟨xu, hxu⟩ := Option.isSome_iff_exists.mp hu
    subst h1
    simp [parseComponents, hnq, parseTail, hstep1, stepComp_u_mid (some nw) u xu hxu, isOk]
  · obtain ⟨xs, hxs⟩ := Option.isSome_iff_exists.mp hs
    subst h1
    simp [parseComponents, hnq, parseTail, hstep1,
      stepComp_s_mid (some nw) none sg xs hxs, isOk]
  · obtain ⟨xu, hxu⟩ := Option.isSome_iff_exists.mp hu
    obtain ⟨xs, hxs⟩ := Option.isSome_iff_exists.mp hs
    subst h1
    simp [parseComponents, hnq, parseTail, hstep1, stepComp_u_mid (some nw) u xu hxu,
      stepComp_s_mid (some nw) (some xu) sg xs hxs, isOk]

/-- The parser accepts a component list exactly when it is of the grammar
form. -/
theorem parseComponents_ok_iff (cs : List (List Char)) :
    isOk (parseComponents cs) = true ↔ ValidPolicyComponents cs := by
  constructor
  · intro h
    cases cs with
    | nil => simp [parseComponents, isOk] at h
    | cons q rest =>
      rcases hq : parsePos q with _ | nq
      · simp [parseComponents, hq, isOk] at h
      · rcases htail : parseTail rest ⟨none, none, none⟩ with e | st
        · simp [parseComponents, hq, htail, isOk] at h
        · rcases hw : st.w with _ | win
          · simp [parseComponents, hq, htail, hw, isOk] at h
          · obtain ⟨wv, n, tail, hrest, hpwv, hshapes, _⟩ :=
              parseTail_start_inv rest st htail (by rw [hw]; rfl)
            exact ⟨q, wv, tail, by rw [hq]; rfl, by rw [hpwv]; rfl, hshapes, by rw [hrest]⟩
  · exact parseComponents_ok_of_valid cs

/-- When the key's current window already lacks budget for the cost, any
number of further evaluate calls at the same instant are all rejected and
leave the store untouched. -/
theorem runSeq_all_rejected (p : Policy) (ctx : Context) (cost now : Int) (key : String)
    (hres : resolveKey p.segment ctx = Except.ok key) :
    ∀ (m : Nat) (s : Store) (st : WindowState), s key = some st →
      now < st.window_start + st.window_seconds →
      p.quota - st.consumed < cost →
      runSeq p s (List.replicate m (ctx, cost, now)) =
        some (List.replicate m ⟨false, max (p.quota - st.consumed) 0,
          some (st.window_start + st.window_seconds - now)⟩, s) := by
  intro m
  induction m with
  | zero =>
    intro s st h hlt hq
    rfl
  | succ k ih =>
    intro s st h hlt hq
    have heval : evaluate p ctx cost now s =
        Except.ok (⟨false, max (p.quota - st.consumed) 0,
          some (st.window_start + st.window_seconds - now)⟩, s) := by
      rw [evaluate_eq_of_resolve p ctx cost now s key hres,
        getOrCreate_keep s key p.window_seconds now st h hlt]
      dsimp only
      rw [if_neg (not_le.mpr hq)]
    simp only [List.replicate_succ, runSeq, heval, ih s st h hlt hq]

/-- C8: with §5's mandated atomicity, N concurrent evaluate calls against
a single fresh key with quota 1 and cost 1 serialize into N atomic
evaluate transactions, and in every such serialization exactly one call is
admitted and the other N-1 are rejected. -/
theorem concurrent_single_admission :
    ∀ (n : Nat) (p : Policy) (ctx : Context) (key : String) (now : Int),
      0 < n → p.quota = 1 → 0 < p.window_seconds →
      resolveKey p.segment ctx = Except.ok key →
      ∃ ds s', runSeq p Store.empty (List.replicate n (ctx, 1, now)) = some (ds, s') ∧
        ds.length = n ∧ ds.countP (fun d => d.admitted) = 1 ∧
        ds.countP (fun d => !d.admitted) = n - 1 := by
  intro n p ctx key now hn hq hw hres
  obtain ⟨m, rfl⟩ : ∃ m, n = m + 1 := ⟨n - 1, (Nat.succ_pred_eq_of_pos hn).symm⟩
  have hg : getOrCreate Store.empty key p.window_seconds now =
      (⟨now, 0, p.window_seconds⟩, Store.empty.set key ⟨now, 0, p.window_seconds⟩) :=
    getOrCreate_fresh Store.empty key p.window_seconds now rfl
  have hrec : record (Store.empty.set key ⟨now, 0, p.window_seconds⟩) key 1 =
      (Store.empty.set key ⟨now, 0, p.window_seconds⟩).set key ⟨now, 0 + 1, p.window_seconds⟩ :=
    record_of_some _ key 1 ⟨now, 0, p.window_seconds⟩ (Store.set_self _ key _)
  have hkey2 : ((Store.empty.set key ⟨now, 0, p.window_seconds⟩).set key
      ⟨now, 0 + 1, p.window_seconds⟩) key = some ⟨now, 0 + 1, p.window_seconds⟩ :=
    Store.set_self _ key _
  have heval : evaluate p ctx 1 now Store.empty =
      Except.ok (⟨true, p.quota - 0 - 1, none⟩,
        (Store.empty.set key ⟨now, 0, p.window_seconds⟩).set key
          ⟨now, 0 + 1, p.window_seconds⟩) := by
    rw [evaluate_eq_of_resolve p ctx 1 now Store.empty key hres, hg]
    dsimp only
    rw [if_pos (by rw [hq]; norm_num), hrec]
  refine ⟨⟨true, p.quota - 0 - 1, none⟩ ::
    List.replicate m ⟨false, max (p.quota - (0 + 1)) 0, some (now + p.window_seconds - now)⟩,
    (Store.empty.set key ⟨now, 0, p.window_seconds⟩).set key ⟨now, 0 + 1, p.window_seconds⟩,
    ?_, ?_, ?_, ?_⟩
  · have htail := runSeq_all_rejected p ctx 1 now key hres m
      ((Store.empty.set key ⟨now, 0, p.window_seconds⟩).set key ⟨now, 0 + 1, p.window_seconds⟩)
      ⟨now, 0 + 1, p.window_seconds⟩ hkey2 (by dsimp only; linarith)
      (by dsimp only; rw [hq]; norm_num)
    simp only [List.replicate_succ, runSeq, heval, htail]
  · simp
  · simp only [List.countP_cons, List.countP_replicate]
    norm_num
  · simp only [List.countP_cons, List.countP_replicate]
    norm_num

/-- Witness for C8: three simultaneous cost-1 calls against a fresh global
key with quota 1 give exactly one admission and two rejections. -/
theorem concurrent_single_admission_witness :
    ∃ ds s', runSeq ⟨1, 60, CostUnit.requests, Segment.global⟩ Store.empty
        (List.replicate 3 (⟨none, none, none⟩, 1, 0)) = some (ds, s') ∧
      ds.length = 3 ∧ ds.countP (fun d => d.admitted) = 1 ∧
      ds.countP (fun d => !d.admitted) = 3 - 1 :=
  concurrent_single_admission 3 ⟨1, 60, CostUnit.requests, Segment.global⟩
    ⟨none, none, none⟩ "*" 0 (by decide) rfl (by decide) rfl

/-- C4: the Policy Parser fails — and its only error type is
PolicyParseError — exactly when the `;`-split component list is not of the
grammar form: a non-numeric or non-positive quota or window, an
unrecognized unit or segment token, a missing mandatory w= component, or
an otherwise malformed component; in particular "abc;w=10" fails. The
parser is a pure function of its input string. -/
theorem parsePolicy_fail_characterization :
    (∀ cs, isOk (parseComponents cs) = true ↔ ValidPolicyComponents cs) ∧
    isOk (parsePolicy "abc;w=10") = false :=
  ⟨parseComponents_ok_iff, rfl⟩

/-- Witness for C4: the iff instantiated at the concrete component list of
"7;w=9" shows the parser accepts it. -/
theorem parsePolicy_fail_characterization_witness :
    isOk (parseComponents (splitSemi ("7;w=9".data))) = true :=
  (parsePolicy_fail_characterization.1 (splitSemi ("7;w=9".data))).mpr
    ⟨['7'], ['9'], [], by decide, by decide, Or.inl rfl, by decide⟩

/-- C3: the Policy Parser maps the documented well-formed policy strings to
the structured policies with the documented defaults: "100;w=3600" gives
quota 100, window 3600 seconds, the default unit `requests` and the global
segment, and "500;w=86400;u=cents;s=user" gives quota 500, window 86400
seconds, unit `cents` and the user segment. -/
theorem parsePolicy_documented_examples :
    parsePolicy "100;w=3600" =
      Except.ok ⟨100, 3600, CostUnit.requests, Segment.global⟩ ∧
    parsePolicy "500;w=86400;u=cents;s=user" =
      Except.ok ⟨500, 86400, CostUnit.cents, Segment.user⟩ :=
  ⟨rfl, rfl⟩

/-- C5: the Key Resolver returns "*" for the global segment; for the user
segment it fails with `MissingContextError` exactly when `user_id` is
absent and otherwise returns "user:" ++ user_id; for the property segment
it fails with `MissingContextError` exactly when the named property value
is absent and otherwise returns "property:" ++ name ++ ":" ++ value; and
`evaluate` with a user-segment policy and no `user_id` in the context
fails with `MissingContextError`. -/
theorem resolveKey_spec (ctx : Context) :
    resolveKey Segment.global ctx = Except.ok "*" ∧
    ((∃ e, resolveKey Segment.user ctx = Except.error e) ↔ ctx.user_id = none) ∧
    (∀ uid, ctx.user_id = some uid →
      resolveKey Segment.user ctx = Except.ok ("user:" ++ uid)) ∧
    ((∃ e, resolveKey Segment.property ctx = Except.error e) ↔
      ¬ ∃ n v, ctx.property_name = some n ∧ ctx.property_value = some v) ∧
    (∀ n v, ctx.property_name = some n → ctx.property_value = some v →
      resolveKey Segment.property ctx = Except.ok ("property:" ++ n ++ ":" ++ v)) ∧
    (∀ (p : Policy) (cost now : Int) (s : Store), p.segment = Segment.user →
      ctx.user_id = none → ∃ e, evaluate p ctx cost now s = Except.error e) := by
  obtain ⟨u, n, v⟩ := ctx
  refine ⟨rfl, ?_, ?_, ?_, ?_, ?_⟩
  · rcases u with _ | u <;> simp [resolveKey]
  · rcases u with _ | u <;> simp [resolveKey]
  · rcases n with _ | n <;> rcases v with _ | v <;> simp [resolveKey]
  · rcases n with _ | n <;> rcases v with _ | v <;> simp [resolveKey]
  · intro p cost now s hseg hu
    cases hu
    simp [evaluate, hseg, resolveKey]

/-- Witness for C5: a user-segment policy evaluated with an empty context
raises `MissingContextError`. -/
theorem resolveKey_spec_witness :
    ∃ e, evaluate ⟨1, 60, CostUnit.requests, Segment.user⟩ ⟨none, none, none⟩ 1 0
      Store.empty = Except.error e :=
  (resolveKey_spec ⟨none, none, none⟩).2.2.2.2.2 ⟨1, 60, CostUnit.requests, Segment.user⟩
    1 0 Store.empty rfl rfl

end RateLimiter

/-- C9: every Helicone-RateLimit-Policy header value the repository scripts
send matches the §4.1 grammar and parses to the expected Policy without
`PolicyParseError`. -/
theorem script_policy_headers_parse :
    RateLimiter.parsePolicy RateLimitingScript.global_rate_limit_policy =
      Except.ok ⟨1000, 3600, RateLimiter.CostUnit.requests, RateLimiter.Segment.global⟩ ∧
    RateLimiter.parsePolicy RateLimitingScript.per_user_rate_limit_policy =
      Except.ok ⟨100, 86400, RateLimiter.CostUnit.requests, RateLimiter.Segment.user⟩ ∧
    RateLimiter.parsePolicy RateLimitingScript.cost_based_rate_limit_policy =
      Except.ok ⟨500, 86400, RateLimiter.CostUnit.cents, RateLimiter.Segment.user⟩ ∧
    RateLimiter.parsePolicy RateLimitingScript.department_rate_limit_policy =
      Except.ok ⟨5000, 3600, RateLimiter.CostUnit.requests, RateLimiter.Segment.property⟩ ∧
    RateLimiter.ValidPolicyComponents
      (RateLimiter.splitSemi RateLimitingScript.global_rate_limit_policy.data) ∧
    RateLimiter.ValidPolicyComponents
      (RateLimiter.splitSemi RateLimitingScript.per_user_rate_limit_policy.data) ∧
    RateLimiter.ValidPolicyComponents
      (RateLimiter.splitSemi RateLimitingScript.cost_based_rate_limit_policy.data) ∧
    RateLimiter.ValidPolicyComponents
      (RateLimiter.splitSemi RateLimitingScript.department_rate_limit_policy.data) :=
  ⟨rfl, rfl, rfl, rfl,
   ⟨_, _, _, by decide, by decide, Or.inl rfl, rfl⟩,
   ⟨_, _, _, by decide, by decide,
     Or.inr (Or.inr (Or.inl ⟨_, by decide, rfl⟩)), rfl⟩,
   ⟨_, _, _, by decide, by decide,
     Or.inr (Or.inr (Or.inr ⟨_, _, by decide, by decide, rfl⟩)), rfl⟩,
   ⟨_, _, _, by decide, by decide,
     Or.inr (Or.inr (Or.inl ⟨_, by decide, rfl⟩)), rfl⟩⟩

namespace LangchainExample

/-- C10: the header map built by `create_helicone_llm` always holds
Helicone-Property-Framework mapped to "langchain", holds
Helicone-Session-Id exactly when session_id is provided and non-empty,
holds Helicone-User-Id exactly when user_id is provided and non-empty, and
holds no other header. -/
theorem create_helicone_llm_headers_spec (sid uid : Option String) :
    getHeader (create_helicone_llm_headers sid uid) "Helicone-Property-Framework" =
      some "langchain" ∧
    (∀ x, sid = some x → x ≠ "" →
      getHeader (create_helicone_llm_headers sid uid) "Helicone-Session-Id" = some x) ∧
    ((∃ x, getHeader (create_helicone_llm_headers sid uid) "Helicone-Session-Id" = some x)
      ↔ ∃ x, sid = some x ∧ x ≠ "") ∧
    (∀ x, uid = some x → x ≠ "" →
      getHeader (create_helicone_llm_headers sid uid) "Helicone-User-Id" = some x) ∧
    ((∃ x, getHeader (create_helicone_llm_headers sid uid) "Helicone-User-Id" = some x)
      ↔ ∃ x, uid = some x ∧ x ≠ "") ∧
    (∀ k, k ≠ "Helicone-Property-Framework" → k ≠ "Helicone-Session-Id" →
      k ≠ "Helicone-User-Id" → getHeader (create_helicone_llm_headers sid uid) k = none) := by
  have hPS : ("Helicone-Property-Framework" : String) ≠ "Helicone-Session-Id" := by decide
  have hPU : ("Helicone-Property-Framework" : String) ≠ "Helicone-User-Id" := by decide
  have hSU : ("Helicone-Session-Id" : String) ≠ "Helicone-User-Id" := by decide
  refine ⟨?_, ?_, ?_, ?_, ?_, ?_⟩
  · rcases sid with _ | x <;> rcases uid with _ | y <;>
      simp [create_helicone_llm_headers, getHeader] <;>
      split_ifs <;> simp [getHeader, *]
  · intro x hx hne
    cases hx
    rcases uid with _ | y <;>
      simp [create_helicone_llm_headers, getHeader, hne, hPS, Ne.symm hSU] <;>
      split_ifs <;> simp [getHeader, hPS, Ne.symm hSU]
  · rcases sid with _ | x <;> rcases uid with _ | y <;>
      simp [create_helicone_llm_headers, getHeader, hPS, Ne.symm hSU] <;>
      split_ifs <;> simp_all [getHeader, hPS, Ne.symm hSU]
  · intro x hx hne
    cases hx
    rcases sid with _ | y <;>
      simp [create_helicone_llm_headers, getHeader, hne, hPU, hSU] <;>
      split_ifs <;> simp [getHeader, hPU, hSU, hne]
  · rcases sid with _ | x <;> rcases uid with _ | y <;>
      simp [create_helicone_llm_headers, getHeader, hPU, hSU] <;>
      split_ifs <;> simp_all [getHeader, hPU, hSU]
  · intro k h1 h2 h3
    rcases sid with _ | x <;> rcases uid with _ | y <;>
      simp [create_helicone_llm_headers, getHeader, Ne.symm h1, Ne.symm h2, Ne.symm h3] <;>
      split_ifs <;> simp [getHeader, Ne.symm h1, Ne.symm h2, Ne.symm h3]

/-- Witness for C10: with a session id and a user id both present and
non-empty, the session header carries the session id and an unrelated
header name is absent. -/
theorem create_helicone_llm_headers_spec_witness :
    getHeader (create_helicone_llm_headers (some "sess-1") (some "doctor-smith"))
      "Helicone-Session-Id" = some "sess-1" ∧
    getHeader (create_helicone_llm_headers (some "sess-1") (some "doctor-smith"))
      "Helicone-Cache-Enabled" = none :=
  ⟨(create_helicone_llm_headers_spec (some "sess-1") (some "doctor-smith")).2.1 "sess-1"
      rfl (by decide),
    (create_helicone_llm_headers_spec (some "sess-1") (some "doctor-smith")).2.2.2.2.2
      "Helicone-Cache-Enabled" (by decide) (by decide) (by decide)⟩

end LangchainExample
